import Mathlib

/-!
Verification of the WhatsApp chatbot server (`server.py`) against its
natural-language specification.

The relevant parts of `server.py` are shallowly embedded below:

* text is modelled as Lean `String` / `List Char`;
* `time.time()` timestamps are modelled as rationals (`ℚ`);
* `datetime.now()` instants used by the SQLite layer are modelled as an
  abstract strictly increasing tick counter (`ℕ`) carried in the database
  state;
* the SQLite tables are modelled as in-memory lists of rows;
* effectful collaborator calls (OpenAI, the two `add_message` persistence
  calls, `get_conversation`) that may fail with an exception are modelled
  as `Except Unit _` values supplied to the embedded function;
* HMAC-SHA256 (`hmac` / `hashlib` from the Python standard library) is
  implemented concretely over byte lists.

Each embedded definition is annotated with the `server.py` function it
translates.
-/

/-! ## Python string primitives -/

/-- Python `str.strip()` whitespace set, ASCII part
(space, tab, newline, carriage return, vertical tab, form feed). -/
def pyIsSpace (c : Char) : Bool :=
  c = ' ' || c = '\t' || c = '\n' || c = '\r' || c = '\x0b' || c = '\x0c'

/-- Python `str.strip()` on a character list: drop whitespace from both ends. -/
def pyStrip (l : List Char) : List Char :=
  ((l.dropWhile pyIsSpace).reverse.dropWhile pyIsSpace).reverse

/-! ## Rate limiter (`is_rate_limited`, server.py lines 260-275)

The per-user entry of `rate_limit_tracker` is a list of `time.time()`
timestamps.  `is_rate_limited` prunes entries whose age is 60 seconds or
more, rejects (returning `true`) without recording when the pruned window
has reached the configured limit, and otherwise records `now` and admits
(returning `false`).  The function returns the verdict together with the
new tracker entry for the user. -/

def is_rate_limited (limit : ℕ) (now : ℚ) (window : List ℚ) :
    Bool × List ℚ :=
  let pruned := window.filter (fun t => now - t < 60)
  if limit ≤ pruned.length then
    (true, pruned)
  else
    (false, pruned ++ [now])

/-- Claim C3: with a configured per-minute limit `N > 0`, an admission check
made while at least `N` recorded admissions for the user lie strictly within
the preceding 60 seconds is rejected and does not record its own timestamp
(the tracker entry becomes exactly the pruned window); a check made after
every recorded admission is at least 60 seconds old is admitted again. -/
theorem is_rate_limited_sliding_window (limit : ℕ) (now : ℚ) (window : List ℚ)
    (hpos : 0 < limit) :
    (limit ≤ (window.filter (fun t => now - t < 60)).length →
      is_rate_limited limit now window =
        (true, window.filter (fun t => now - t < 60))) ∧
    ((∀ t ∈ window, 60 ≤ now - t) →
      (is_rate_limited limit now window).1 = false) := by
  constructor
  · intro hfull
    simp [is_rate_limited, hfull]
  · intro hold
    have hnil : window.filter (fun t => now - t < 60) = [] := by
      apply List.filter_eq_nil_iff.mpr
      intro t ht
      simp only [decide_eq_true_eq, not_lt]
      exact hold t ht
    simp [is_rate_limited, hnil, Nat.not_succ_le_zero, hpos.ne']

/-- Witness for C3 at limit 2 and `now = 100`, exercising both scenarios
non-vacuously: with window `[50, 90]` (ages 50 and 10, both strictly inside
60 seconds, so the pruned window already holds 2 ≥ limit entries) the check
is rejected and records nothing; with window `[10, 20]` (ages 90 and 80,
both at least 60 seconds) the check is admitted again. -/
theorem is_rate_limited_sliding_window_witness :
    0 < 2 ∧
    2 ≤ (([50, 90] : List ℚ).filter (fun t => (100 : ℚ) - t < 60)).length ∧
    is_rate_limited 2 100 [50, 90] = (true, [50, 90]) ∧
    (∀ t ∈ ([10, 20] : List ℚ), 60 ≤ (100 : ℚ) - t) ∧
    (is_rate_limited 2 100 [10, 20]).1 = false := by
  have hfull : 2 ≤ (([50, 90] : List ℚ).filter
      (fun t => (100 : ℚ) - t < 60)).length := by
    norm_num [List.filter]
  have hold : ∀ t ∈ ([10, 20] : List ℚ), 60 ≤ (100 : ℚ) - t := by
    norm_num
  have hfilter : ([50, 90] : List ℚ).filter (fun t => (100 : ℚ) - t < 60)
      = [50, 90] := by
    norm_num [List.filter]
  refine ⟨by norm_num, hfull, ?_, hold, ?_⟩
  · have h := (is_rate_limited_sliding_window 2 100 [50, 90] (by norm_num)).1 hfull
    rw [hfilter] at h
    exact h
  · exact (is_rate_limited_sliding_window 2 100 [10, 20] (by norm_num)).2 hold

/-! ## Admin command dispatch (`handle_admin_command`, server.py lines 425-453,
and the admin branch of `webhook`, lines 477-485)

`db_manager.get_stats()` and `db_manager.cleanup_old_conversations(...)` are
effectful collaborator calls; their results at the moment of the call are
supplied as the `stats` and `cleaned` arguments. -/

/-- Database statistics as returned by `DatabaseManager.get_stats`
(server.py lines 208-222). -/
structure Stats where
  total_conversations : ℕ
  total_messages : ℕ
  active_conversations_24h : ℕ
  deriving DecidableEq, Repr

/-- Python `str.lower()` (ASCII case fold; the command grammar is ASCII). -/
def pyLower (s : String) : String :=
  String.mk (s.data.map Char.toLower)

/-- Helper for `pySplit` (accumulates the current word, reversed). -/
def pySplitAux : List Char → List Char → List (List Char)
  | [], acc => if acc.isEmpty then [] else [acc.reverse]
  | c :: cs, acc =>
    if pyIsSpace c then
      if acc.isEmpty then pySplitAux cs [] else acc.reverse :: pySplitAux cs []
    else
      pySplitAux cs (c :: acc)

/-- Python `str.split()` with no argument: split on whitespace runs,
discarding empty fields. -/
def pySplit (s : String) : List String :=
  (pySplitAux s.data []).map String.mk

/-- Embeds `handle_admin_command(user_id, command)` (server.py lines 425-453).
Returns the optional admin reply text. -/
def handle_admin_command (admins : List String) (stats : Stats) (cleaned : ℕ)
    (user_id command : String) : Option String :=
  if user_id ∈ admins then
    match pySplit (pyLower command) with
    | p0 :: p1 :: _ =>
      if p0 ≠ "/admin" then
        none
      else if p1 = "stats" then
        some ("ðŸ“Š Bot Statistics:\n" ++
          "Total conversations: " ++ toString stats.total_conversations ++ "\n" ++
          "Total messages: " ++ toString stats.total_messages ++ "\n" ++
          "Active (24h): " ++ toString stats.active_conversations_24h)
      else if p1 = "cleanup" then
        some ("ðŸ§¹ Cleaned up " ++ toString cleaned ++
          " old conversations")
      else if p1 = "help" then
        some ("ðŸ”§ Admin Commands:\n" ++
          "/admin stats - Show statistics\n" ++
          "/admin cleanup - Clean old conversations\n" ++
          "/admin help - Show this help")
      else
        some ("â“ Unknown admin command. Use \x27/admin help\x27 for available commands.")
    | _ => none
  else
    none

/-- The two ways the webhook handler proceeds after the admin-command check
(server.py lines 477-485): deliver an admin reply and stop, or fall through
to the standard pipeline (rate limiting, then AI chat). -/
inductive WebhookBranch where
  | adminReply (r : String)
  | standardChat
  deriving DecidableEq, Repr

/-- Embeds the admin dispatch step of `webhook` (server.py lines 477-485):
`if admin_response:` is Python truthiness, so an empty-string reply would
also fall through to the standard pipeline. -/
def webhook_dispatch (admins : List String) (stats : Stats) (cleaned : ℕ)
    (user_id text : String) : WebhookBranch :=
  match handle_admin_command admins stats cleaned user_id text with
  | some r => if r = "" then .standardChat else .adminReply r
  | none => .standardChat

/-- Claim C8: a sender not in the configured administrator set always gets
`None` from `handle_admin_command` — even for texts that are exactly admin
commands such as "/admin stats" — so the webhook falls through to the
standard chat pipeline; the dispatch outcome for a non-admin is the same
(`standardChat`) for every text, leaking nothing about command existence. -/
theorem handle_admin_command_non_admin (admins : List String) (stats : Stats)
    (cleaned : ℕ) (user_id text : String) (h : user_id ∉ admins) :
    handle_admin_command admins stats cleaned user_id text = none ∧
    webhook_dispatch admins stats cleaned user_id text = .standardChat := by
  have hnone : handle_admin_command admins stats cleaned user_id text = none := by
    simp [handle_admin_command, h]
  exact ⟨hnone, by simp [webhook_dispatch, hnone]⟩

/-- Witness for C8: the non-admin "222" sending the exact admin command
"/admin stats" with one configured admin "111". -/
theorem handle_admin_command_non_admin_witness :
    ("222" ∉ ["111"]) ∧
    (handle_admin_command ["111"] ⟨1, 2, 3⟩ 0 "222" "/admin stats" = none ∧
     webhook_dispatch ["111"] ⟨1, 2, 3⟩ 0 "222" "/admin stats" = .standardChat) :=
  ⟨by decide, handle_admin_command_non_admin ["111"] ⟨1, 2, 3⟩ 0 "222"
    "/admin stats" (by decide)⟩

/-! ## Conversation storage (`DatabaseManager`, server.py lines 67-222)

The SQLite tables are modelled as in-memory lists of rows.  `datetime.now()`
is modelled by the strictly increasing `now` counter of the state (each
database write consumes one tick), and `AUTOINCREMENT` by `nextId`.  Under
this clock, `ORDER BY timestamp DESC` is an insertion sort on the timestamp
column. -/

/-- A row of the `messages` table (server.py lines 86-96). -/
structure MsgRow where
  id : ℕ
  user_id : String
  role : String
  content : String
  timestamp : ℕ
  message_id : Option String
  deriving DecidableEq, Repr

/-- A row of the `conversations` table (server.py lines 77-84). -/
structure ConvRow where
  user_id : String
  last_activity : ℕ
  message_count : ℕ
  created_at : ℕ
  deriving DecidableEq, Repr

/-- The database state, plus the modelled clock and autoincrement counter. -/
structure DBState where
  convs : List ConvRow
  msgs : List MsgRow
  nextId : ℕ
  now : ℕ
  deriving DecidableEq, Repr

/-- A freshly initialised database (`init_database`): both tables empty. -/
def initState : DBState := ⟨[], [], 1, 0⟩

/-- The `Message` dataclass (server.py lines 53-58). -/
structure Message where
  role : String
  content : String
  timestamp : ℕ
  message_id : Option String
  deriving DecidableEq, Repr

/-- The `Conversation` dataclass (server.py lines 60-65). -/
structure Conversation where
  user_id : String
  messages : List Message
  last_activity : ℕ
  message_count : ℕ
  deriving DecidableEq, Repr

/-- Insert one row into a timestamp-descending list (`ORDER BY timestamp
DESC` building block). -/
def insertTsDesc (m : MsgRow) : List MsgRow → List MsgRow
  | [] => [m]
  | x :: xs => if x.timestamp ≤ m.timestamp then m :: x :: xs else x :: insertTsDesc m xs

/-- Sort rows by timestamp, most recent first (`ORDER BY timestamp DESC`). -/
def sortTsDesc : List MsgRow → List MsgRow
  | [] => []
  | x :: xs => insertTsDesc x (sortTsDesc xs)

/-- Builds the `Message` dataclass from a `messages` row
(server.py lines 146-152). -/
def msgOfRow (r : MsgRow) : Message :=
  ⟨r.role, r.content, r.timestamp, r.message_id⟩

/-- Embeds `DatabaseManager.get_conversation` (server.py lines 115-159):
get or lazily create the conversation row, then return the most recent `W`
messages (`W` = `Config.MAX_CONVERSATION_LENGTH`) in oldest-to-newest order
together with the row's `last_activity` and `message_count`.  Returns the
`Conversation` and the updated database state. -/
def get_conversation (W : ℕ) (user_id : String) (s : DBState) :
    Conversation × DBState :=
  let convRow := s.convs.find? (fun c => c.user_id == user_id)
  let s' : DBState :=
    match convRow with
    | none =>
      { s with
        convs := s.convs ++ [⟨user_id, s.now, 0, s.now⟩]
        now := s.now + 1 }
    | some _ => s
  let message_count := match convRow with
    | none => 0
    | some r => r.message_count
  let last_activity := match convRow with
    | none => s.now
    | some r => r.last_activity
  let message_rows := (sortTsDesc (s.msgs.filter
    (fun m => m.user_id == user_id))).take W
  (⟨user_id, message_rows.reverse.map msgOfRow, last_activity, message_count⟩, s')

/-- Embeds `DatabaseManager.add_message` (server.py lines 161-180): insert
the message row with the current instant, then `UPDATE conversations SET
last_activity = ?, message_count = message_count + 1 WHERE user_id = ?`
(which touches nothing when no conversation row exists). -/
def add_message (user_id role content : String) (message_id : Option String)
    (s : DBState) : DBState :=
  let ts := s.now
  { convs := s.convs.map (fun c =>
      if c.user_id == user_id then
        { c with last_activity := ts, message_count := c.message_count + 1 }
      else c)
    msgs := s.msgs ++ [⟨s.nextId, user_id, role, content, ts, message_id⟩]
    nextId := s.nextId + 1
    now := s.now + 1 }

/-- Embeds `DatabaseManager.get_stats` (server.py lines 208-222).  The
instant `datetime.now() - timedelta(hours=24)` is supplied as `cutoff24h`. -/
def get_stats (cutoff24h : ℕ) (s : DBState) : Stats :=
  ⟨s.convs.length, s.msgs.length,
   (s.convs.filter (fun c => cutoff24h < c.last_activity)).length⟩

/-! ## HTTP read endpoints (server.py lines 534-596) -/

/-- The bearer-token check used by `/conversations/<user_id>` and
`/admin/cleanup` (server.py lines 559-560 and 586-587):
`auth_header.startswith('Bearer ') and auth_header[7:] == Config.ADMIN_TOKEN`. -/
def bearer_auth_ok (admin_token auth_header : String) : Bool :=
  auth_header.data.take 7 == "Bearer ".data &&
    auth_header.data.drop 7 == admin_token.data

/-- Response of the `/stats` route: HTTP status plus the disclosed body
(database statistics and the two echoed configuration values). -/
structure StatsRouteResult where
  status : ℕ
  body : Option (Stats × ℕ × ℕ)
  deriving DecidableEq, Repr

/-- Embeds the `/stats` route handler `get_stats` (server.py lines 545-553).
The handler reads no `Authorization` header: it unconditionally returns
HTTP 200 with the database statistics, `rate_limit_per_minute` and
`max_conversation_length`.  The `auth_header` argument is the request's
`Authorization` header, which the source never consults. -/
def stats_route (rate_limit_per_minute max_conversation_length cutoff24h : ℕ)
    (s : DBState) (auth_header : String) : StatsRouteResult :=
  { status := 200
    body := some (get_stats cutoff24h s,
                  rate_limit_per_minute, max_conversation_length) }

/-- Embeds the `/conversations/<user_id>` route handler
`get_conversation_history` (server.py lines 555-581): bearer-token check,
then the conversation's `message_count`, `last_activity` and last 20
messages. -/
def get_conversation_history (admin_token : String) (W : ℕ) (user_id : String)
    (s : DBState) (auth_header : String) :
    ℕ × Option (ℕ × ℕ × List Message) :=
  if bearer_auth_ok admin_token auth_header then
    let conv := (get_conversation W user_id s).1
    (200, some (conv.message_count, conv.last_activity,
      conv.messages.drop (conv.messages.length - 20)))
  else
    (401, none)

/-- Counterexample to claim C2: a request to `/stats` with an empty
`Authorization` header (no bearer token at all) is answered with HTTP 200
and the full statistics body, not with an unauthorized failure.
(Configuration: rate limit 30, window 10, cutoff 0, fresh database.) -/
theorem stats_route_no_auth_counterexample :
    stats_route 30 10 0 initState "" =
      { status := 200, body := some (⟨0, 0, 0⟩, 30, 10) } ∧
    (200 : ℕ) ≠ 401 := by
  constructor
  · rfl
  · decide

/-- Claim C2, amended: the aggregate-stats route performs no authentication
at all — it answers every request, whatever the `Authorization` header, with
HTTP 200 and the statistics body; bearer-token authentication guards only
the conversation-history (and manual-cleanup) endpoints, which answer 401
and disclose nothing when the header does not carry the admin token. -/
theorem stats_route_unauthenticated (rl mc cutoff : ℕ) (s : DBState)
    (auth_header admin_token : String) (W : ℕ) (user_id : String)
    (hbad : bearer_auth_ok admin_token auth_header = false) :
    stats_route rl mc cutoff s auth_header =
      { status := 200, body := some (get_stats cutoff s, rl, mc) } ∧
    get_conversation_history admin_token W user_id s auth_header = (401, none) := by
  refine ⟨rfl, ?_⟩
  simp [get_conversation_history, hbad]

/-- Witness for the amended C2 at a concrete unauthorized request
(`Authorization: Bearer wrong` against admin token "secret"). -/
theorem stats_route_unauthenticated_witness :
    bearer_auth_ok "secret" "Bearer wrong" = false ∧
    (stats_route 30 10 0 initState "Bearer wrong" =
      { status := 200, body := some (get_stats 0 initState, 30, 10) } ∧
     get_conversation_history "secret" 10 "u1" initState "Bearer wrong" =
       (401, none)) :=
  ⟨by decide, stats_route_unauthenticated 30 10 0 initState "Bearer wrong"
    "secret" 10 "u1" (by decide)⟩

/-! ## Bounded window and message count (claim C4) -/

/-- A sequence of `add_message` calls for one user: each entry is a
`(role, content)` pair, persisted in call order. -/
def addMessages (user_id : String) (entries : List (String × String))
    (s : DBState) : DBState :=
  entries.foldl (fun st e => add_message user_id e.1 e.2 none st) s

/-- Message rows in strictly increasing timestamp order. -/
def msgsAscending (l : List MsgRow) : Prop :=
  l.Pairwise (fun a b => a.timestamp < b.timestamp)

/-- Database well-formedness maintained by the modelled clock: rows were
inserted at strictly increasing instants, all in the past. -/
def WfDB (s : DBState) : Prop :=
  msgsAscending s.msgs ∧ ∀ m ∈ s.msgs, m.timestamp < s.now

theorem add_message_msgs (user_id role content : String) (mid : Option String)
    (s : DBState) :
    (add_message user_id role content mid s).msgs =
      s.msgs ++ [⟨s.nextId, user_id, role, content, s.now, mid⟩] := rfl

theorem add_message_convs (user_id role content : String) (mid : Option String)
    (s : DBState) :
    (add_message user_id role content mid s).convs =
      s.convs.map (fun c =>
        if c.user_id == user_id then
          { c with last_activity := s.now, message_count := c.message_count + 1 }
        else c) := rfl

theorem insertTsDesc_of_lt (m : MsgRow) (l : List MsgRow)
    (h : ∀ x ∈ l, m.timestamp < x.timestamp) :
    insertTsDesc m l = l ++ [m] := by
  induction l with
  | nil => rfl
  | cons x xs ih =>
    have hx := h x (List.mem_cons_self x xs)
    rw [insertTsDesc, if_neg (by omega), ih (fun y hy => h y (List.mem_cons_of_mem x hy))]
    rfl

theorem sortTsDesc_of_ascending (l : List MsgRow) (h : msgsAscending l) :
    sortTsDesc l = l.reverse := by
  induction l with
  | nil => rfl
  | cons a l ih =>
    rcases List.pairwise_cons.mp h with ⟨ha, hl⟩
    rw [sortTsDesc, ih hl,
      insertTsDesc_of_lt a l.reverse (fun x hx => ha x (List.mem_reverse.mp hx))]
    rw [List.reverse_cons]

theorem wf_add_message (user_id role content : String) (mid : Option String)
    (s : DBState) (h : WfDB s) :
    WfDB (add_message user_id role content mid s) := by
  obtain ⟨hasc, hlt⟩ := h
  constructor
  · rw [msgsAscending, add_message_msgs]
    apply List.pairwise_append.mpr
    refine ⟨hasc, List.pairwise_singleton _ _, ?_⟩
    intro a ha b hb
    have hb' : b = ⟨s.nextId, user_id, role, content, s.now, mid⟩ := by
      simpa using hb
    rw [hb']
    exact hlt a ha
  · intro m hm
    rw [add_message_msgs] at hm
    rcases List.mem_append.mp hm with hold | hnew
    · have := hlt m hold
      show m.timestamp < s.now + 1
      omega
    · have hm' : m = ⟨s.nextId, user_id, role, content, s.now, mid⟩ := by
        simpa using hnew
      rw [hm']
      show s.now < s.now + 1
      omega

theorem addMessages_wf (user_id : String) (entries : List (String × String)) :
    ∀ s : DBState, WfDB s → WfDB (addMessages user_id entries s) := by
  induction entries with
  | nil => intro s h; exact h
  | cons e es ih =>
    intro s h
    exact ih _ (wf_add_message user_id e.1 e.2 none s h)

theorem find?_map_update (user_id : String) (ts : ℕ) :
    ∀ (l : List ConvRow) (r : ConvRow),
    l.find? (fun c => c.user_id == user_id) = some r →
    (l.map (fun c =>
        if c.user_id == user_id then
          { c with last_activity := ts, message_count := c.message_count + 1 }
        else c)).find? (fun c => c.user_id == user_id)
      = some { r with last_activity := ts, message_count := r.message_count + 1 } := by
  intro l
  induction l with
  | nil => intro r h; simp at h
  | cons a l ih =>
    intro r h
    by_cases ha : (a.user_id == user_id) = true
    · rw [List.find?_cons_of_pos l ha] at h
      have hr : r = a := by simpa using h.symm
      subst hr
      rw [List.map_cons, if_pos ha]
      exact List.find?_cons_of_pos _ ha
    · have ha' : ¬ (a.user_id == user_id) = true := ha
      rw [List.find?_cons_of_neg l ha'] at h
      rw [List.map_cons, if_neg ha']
      rw [@List.find?_cons_of_neg ConvRow (fun c => c.user_id == user_id) a _ ha']
      exact ih r h

theorem addMessages_count (user_id : String) (entries : List (String × String)) :
    ∀ (s : DBState) (r : ConvRow),
    s.convs.find? (fun c => c.user_id == user_id) = some r →
    ∃ r', (addMessages user_id entries s).convs.find?
        (fun c => c.user_id == user_id) = some r' ∧
      r'.message_count = r.message_count + entries.length := by
  induction entries with
  | nil => intro s r h; exact ⟨r, h, rfl⟩
  | cons e es ih =>
    intro s r h
    have hstep : (add_message user_id e.1 e.2 none s).convs.find?
        (fun c => c.user_id == user_id)
        = some { r with last_activity := s.now, message_count := r.message_count + 1 } := by
      rw [add_message_convs]
      exact find?_map_update user_id s.now s.convs r h
    obtain ⟨r', hf, hc⟩ := ih (add_message user_id e.1 e.2 none s) _ hstep
    refine ⟨r', hf, ?_⟩
    simp only [List.length_cons] at *
    omega

theorem addMessages_filter_map (user_id : String)
    (entries : List (String × String)) :
    ∀ s : DBState,
    ((addMessages user_id entries s).msgs.filter
        (fun m => m.user_id == user_id)).map (fun m => (m.role, m.content))
      = (s.msgs.filter (fun m => m.user_id == user_id)).map
          (fun m => (m.role, m.content)) ++ entries := by
  induction entries with
  | nil => intro s; simp [addMessages]
  | cons e es ih =>
    intro s
    have hstep : addMessages user_id (e :: es) s
        = addMessages user_id es (add_message user_id e.1 e.2 none s) := rfl
    rw [hstep, ih]
    rw [add_message_msgs, List.filter_append, List.map_append]
    have hone : ([(⟨s.nextId, user_id, e.1, e.2, s.now, none⟩ : MsgRow)].filter
        (fun m => m.user_id == user_id)).map (fun m => (m.role, m.content))
        = [(e.1, e.2)] := by
      simp [List.filter]
    rw [hone]
    simp

/-- Counterexample to claim C4 as stated: on a fresh database, M = 3
`add_message` calls for user "u" without a prior conversation record (the
`UPDATE conversations` touches no row, so no `message_count` is kept), then
`get_conversation` with window W = 2: the W most recent messages are
returned, but `message_count` is 0, not M = 3. -/
theorem add_message_count_counterexample :
    ((get_conversation 2 "u" (addMessages "u"
        [("user", "a"), ("user", "b"), ("user", "c")] initState)).1).message_count
      = 0 ∧
    ((get_conversation 2 "u" (addMessages "u"
        [("user", "a"), ("user", "b"), ("user", "c")] initState)).1).messages.map
        (fun m => (m.role, m.content)) = [("user", "b"), ("user", "c")] ∧
    (0 : ℕ) ≠ 3 := by
  refine ⟨rfl, rfl, by decide⟩

/-- Claim C4, amended: the invariant holds once the user's conversation row
exists (which the pipeline guarantees, since `chat_with_ai` always calls
`get_conversation` before `add_message`; a bare `add_message` on a user with
no conversation row inserts the message but updates no count).  Starting
from any well-formed state whose conversation row for the user carries
count `c`, after M ≥ W further `add_message` calls `get_conversation`
reports `message_count = c + M` while returning exactly the W most recent
messages, oldest to newest. -/
theorem get_conversation_window_and_count (W : ℕ) (user_id : String)
    (entries : List (String × String)) (s : DBState) (r : ConvRow)
    (hwf : WfDB s)
    (hrow : s.convs.find? (fun c => c.user_id == user_id) = some r)
    (hM : W ≤ entries.length) :
    ((get_conversation W user_id (addMessages user_id entries s)).1).message_count
      = r.message_count + entries.length ∧
    ((get_conversation W user_id (addMessages user_id entries s)).1).messages.map
        (fun m => (m.role, m.content))
      = entries.drop (entries.length - W) := by
  obtain ⟨r', hfind, hcount⟩ := addMessages_count user_id entries s r hrow
  have hwf' := addMessages_wf user_id entries s hwf
  constructor
  · rw [show ((get_conversation W user_id (addMessages user_id entries s)).1).message_count
        = match (addMessages user_id entries s).convs.find?
            (fun c => c.user_id == user_id) with
          | none => 0
          | some r => r.message_count from rfl]
    rw [hfind]
    exact hcount
  · have hasc : msgsAscending ((addMessages user_id entries s).msgs.filter
        (fun m => m.user_id == user_id)) :=
      List.Pairwise.sublist (List.filter_sublist _) hwf'.1
    have hmsgs : ((get_conversation W user_id (addMessages user_id entries s)).1).messages
        = (((sortTsDesc ((addMessages user_id entries s).msgs.filter
            (fun m => m.user_id == user_id))).take W).reverse).map msgOfRow := rfl
    rw [hmsgs, sortTsDesc_of_ascending _ hasc]
    rw [List.take_reverse, List.reverse_reverse]
    rw [List.map_map]
    have hfun : ((fun m : Message => (m.role, m.content)) ∘ msgOfRow)
        = fun m : MsgRow => (m.role, m.content) := rfl
    rw [hfun]
    rw [List.map_drop]
    rw [addMessages_filter_map]
    have hlen : ((addMessages user_id entries s).msgs.filter
        (fun m => m.user_id == user_id)).length
        = ((s.msgs.filter (fun m => m.user_id == user_id)).map
            (fun m : MsgRow => (m.role, m.content))).length + entries.length := by
      have := congrArg List.length (addMessages_filter_map user_id entries s)
      simpa using this
    rw [hlen]
    have harith : ((s.msgs.filter (fun m => m.user_id == user_id)).map
          (fun m : MsgRow => (m.role, m.content))).length + entries.length - W
        = ((s.msgs.filter (fun m => m.user_id == user_id)).map
            (fun m : MsgRow => (m.role, m.content))).length
          + (entries.length - W) := by omega
    rw [harith]
    exact List.drop_append (entries.length - W)

/-- Witness for the amended C4: the state just after `get_conversation`
created the row for "u" on a fresh database, then M = 3 messages with
window W = 2. -/
theorem get_conversation_window_and_count_witness :
    (WfDB ⟨[⟨"u", 0, 0, 0⟩], [], 1, 1⟩ ∧
     (DBState.convs ⟨[⟨"u", 0, 0, 0⟩], [], 1, 1⟩).find?
        (fun c => c.user_id == "u") = some ⟨"u", 0, 0, 0⟩ ∧
     2 ≤ 3) ∧
    (((get_conversation 2 "u" (addMessages "u"
        [("user", "x"), ("user", "y"), ("user", "z")]
        ⟨[⟨"u", 0, 0, 0⟩], [], 1, 1⟩)).1).message_count = 3 ∧
     ((get_conversation 2 "u" (addMessages "u"
        [("user", "x"), ("user", "y"), ("user", "z")]
        ⟨[⟨"u", 0, 0, 0⟩], [], 1, 1⟩)).1).messages.map
        (fun m => (m.role, m.content)) = [("user", "y"), ("user", "z")]) :=
  ⟨⟨⟨List.Pairwise.nil, by simp⟩, rfl, by decide⟩,
   get_conversation_window_and_count 2 "u"
     [("user", "x"), ("user", "y"), ("user", "z")]
     ⟨[⟨"u", 0, 0, 0⟩], [], 1, 1⟩ ⟨"u", 0, 0, 0⟩
     ⟨List.Pairwise.nil, by simp⟩ rfl (by decide)⟩

/-! ## Input sanitization (`sanitize_input`, server.py lines 235-242) and
the chat pipeline (`chat_with_ai`, lines 317-361) -/

/-- The character class removed by `re.sub(r'[<>"\x27]', '', ...)`. -/
def isRemovedChar (c : Char) : Bool :=
  c = '<' || c = '>' || c = '"' || c = '\x27'

/-- Embeds `sanitize_input` (server.py lines 235-242): empty in, empty out;
otherwise strip surrounding whitespace, delete the characters `<`, `>`,
`"`, `\x27`, and truncate to `Config.MAX_MESSAGE_LENGTH` (passed as
`maxLen`). -/
def sanitize_input (maxLen : ℕ) (text : String) : String :=
  if text = "" then ""
  else String.mk (((pyStrip text.data).filter
    (fun c => !(isRemovedChar c))).take maxLen)

/-- Embeds `get_user_friendly_error` (server.py lines 277-286):
dictionary lookup with a default. -/
def get_user_friendly_error (error_type : String) : String :=
  if error_type = "rate_limit" then
    "You\x27re sending messages too quickly. Please wait a moment."
  else if error_type = "ai_error" then
    "I\x27m having trouble thinking right now. Please try again in a moment."
  else if error_type = "long_message" then
    "Your message is too long. Please break it into smaller parts."
  else if error_type = "invalid_request" then
    "I couldn\x27t process your message. Please try again."
  else if error_type = "server_error" then
    "I\x27m experiencing technical difficulties. Please try again later."
  else
    "Something went wrong. Please try again."

/-- The `len(user_message) > Config.MAX_MESSAGE_LENGTH` guard of
`chat_with_ai` (server.py line 326). -/
def long_message_check (maxLen : ℕ) (m : String) : Bool :=
  decide (maxLen < m.length)

/-- Embeds `chat_with_ai` (server.py lines 317-361).  The effectful calls —
`db_manager.get_conversation`, the OpenAI completion, and the two
`db_manager.add_message` persistence calls — are supplied as `Except Unit _`
outcomes; `Except.error ()` stands for the call raising an exception.  The
enclosing `try/except Exception` turns any raised exception into the
friendly "ai_error" reply, so the function always returns a reply string
and never raises. -/
def chat_with_ai (maxLen : ℕ) (user_message : String)
    (convRes : Except Unit Conversation) (aiRes : Except Unit String)
    (persistUser persistAssistant : Except Unit Unit) : String :=
  let m := sanitize_input maxLen user_message
  if m = "" then get_user_friendly_error "invalid_request"
  else if long_message_check maxLen m then get_user_friendly_error "long_message"
  else
    match convRes with
    | .error _ => get_user_friendly_error "ai_error"
    | .ok _ =>
      match aiRes with
      | .error _ => get_user_friendly_error "ai_error"
      | .ok resp =>
        match persistUser with
        | .error _ => get_user_friendly_error "ai_error"
        | .ok _ =>
          match persistAssistant with
          | .error _ => get_user_friendly_error "ai_error"
          | .ok _ => resp

/-- Embeds the AI branch of the `webhook` POST handler (server.py lines
497-510): call `chat_with_ai`, deliver the reply, and return HTTP 200
unconditionally on this path (the `except` clause returning 500 at line
512-514 is reachable only if the handler body raises, and `chat_with_ai`
catches every exception internally). -/
def webhook_text_outcome (maxLen : ℕ) (user_message : String)
    (convRes : Except Unit Conversation) (aiRes : Except Unit String)
    (persistUser persistAssistant : Except Unit Unit) : ℕ × String :=
  (200, chat_with_ai maxLen user_message convRes aiRes persistUser persistAssistant)

theorem sanitize_length_le (maxLen : ℕ) (text : String) :
    (sanitize_input maxLen text).length ≤ maxLen := by
  rw [sanitize_input]
  by_cases h : text = ""
  · simp [h]
  · rw [if_neg h]
    show (((pyStrip text.data).filter (fun c => !(isRemovedChar c))).take maxLen).length ≤ maxLen
    rw [List.length_take]
    omega

/-- Claim C10: `sanitize_input` output always has length at most
`MAX_MESSAGE_LENGTH` and never contains `<`, `>`, `"` or `\x27`; hence the
"message too long" branch of `chat_with_ai` (`len(user_message) >
MAX_MESSAGE_LENGTH` after sanitization) is unreachable for every input.
The sanitized string is exactly what `chat_with_ai` persists and sends to
the AI. -/
theorem sanitize_input_safe (maxLen : ℕ) (text : String) :
    (sanitize_input maxLen text).length ≤ maxLen ∧
    (∀ c ∈ (sanitize_input maxLen text).data,
      c ≠ '<' ∧ c ≠ '>' ∧ c ≠ '"' ∧ c ≠ '\x27') ∧
    long_message_check maxLen (sanitize_input maxLen text) = false := by
  refine ⟨sanitize_length_le maxLen text, ?_, ?_⟩
  · intro c hc
    have hkeep : (!(isRemovedChar c)) = true := by
      rw [sanitize_input] at hc
      by_cases h : text = ""
      · simp [h] at hc
      · rw [if_neg h] at hc
        have hc' : c ∈ ((pyStrip text.data).filter
            (fun x => !(isRemovedChar x))).take maxLen := hc
        exact (List.mem_filter.mp (List.mem_of_mem_take hc')).2
    have hnot : isRemovedChar c = false := by simpa using hkeep
    rw [isRemovedChar] at hnot
    simp only [Bool.or_eq_false_iff, decide_eq_false_iff_not] at hnot
    exact ⟨hnot.1.1.1, hnot.1.1.2, hnot.1.2, hnot.2⟩
  · rw [long_message_check]
    simp only [decide_eq_false_iff_not, not_lt]
    exact sanitize_length_le maxLen text

/-- Counterexample to claim C9: with the message "hello" and a failing
`get_conversation` (storage error), `chat_with_ai` swallows the error and
the webhook answers HTTP 200 with the friendly "ai_error" text — not a 5xx
server error. -/
theorem webhook_storage_error_counterexample :
    webhook_text_outcome 4000 "hello" (.error ()) (.ok "hi there") (.ok ()) (.ok ())
      = (200, "I\x27m having trouble thinking right now. Please try again in a moment.") ∧
    ¬ (500 ≤ 200) := by
  refine ⟨rfl, by decide⟩

/-- Claim C9, amended: a persistence failure during handling of an inbound
text message (a `get_conversation` or `add_message` call raising) is
swallowed by the blanket `try/except` of `chat_with_ai`: the pipeline
substitutes the friendly "ai_error" reply and the webhook handler returns
HTTP 200 (success), so the caller is not signalled to retry; no 5xx is
produced on this path. -/
theorem webhook_storage_error_swallowed (maxLen : ℕ) (user_message : String)
    (convRes : Except Unit Conversation) (aiRes : Except Unit String)
    (persistUser persistAssistant : Except Unit Unit)
    (hm : sanitize_input maxLen user_message ≠ "")
    (herr : convRes = .error () ∨ persistUser = .error () ∨
      persistAssistant = .error ()) :
    chat_with_ai maxLen user_message convRes aiRes persistUser persistAssistant
      = get_user_friendly_error "ai_error" ∧
    webhook_text_outcome maxLen user_message convRes aiRes persistUser
        persistAssistant
      = (200, get_user_friendly_error "ai_error") := by
  have hguard : long_message_check maxLen (sanitize_input maxLen user_message)
      = false := by
    rw [long_message_check]
    simp only [decide_eq_false_iff_not, not_lt]
    exact sanitize_length_le maxLen user_message
  have hchat : chat_with_ai maxLen user_message convRes aiRes persistUser
      persistAssistant = get_user_friendly_error "ai_error" := by
    simp only [chat_with_ai]
    rw [if_neg hm, hguard]
    simp only [Bool.false_eq_true, if_false]
    cases convRes with
    | error e => rfl
    | ok conv =>
      cases aiRes with
      | error e => rfl
      | ok resp =>
        cases persistUser with
        | error e => rfl
        | ok u =>
          cases persistAssistant with
          | error e => rfl
          | ok v => simp at herr
  exact ⟨hchat, by rw [webhook_text_outcome, hchat]⟩

/-- Witness for the amended C9: message "hello", failing `get_conversation`,
all other collaborators succeeding. -/
theorem webhook_storage_error_swallowed_witness :
    (sanitize_input 4000 "hello" ≠ "" ∧
     ((Except.error () : Except Unit Conversation) = .error () ∨
      (Except.ok () : Except Unit Unit) = .error () ∨
      (Except.ok () : Except Unit Unit) = .error ())) ∧
    (chat_with_ai 4000 "hello" (.error ()) (.ok "hi there") (.ok ()) (.ok ())
      = get_user_friendly_error "ai_error" ∧
     webhook_text_outcome 4000 "hello" (.error ()) (.ok "hi there") (.ok ()) (.ok ())
      = (200, get_user_friendly_error "ai_error")) :=
  ⟨⟨by decide, Or.inl rfl⟩,
   webhook_storage_error_swallowed 4000 "hello" (.error ()) (.ok "hi there")
     (.ok ()) (.ok ()) (by decide) (Or.inl rfl)⟩

/-! ## Message splitting (`split_long_message`, server.py lines 288-315)

Strings are modelled as `List Char`.  The `while message:` loop is embedded
with explicit fuel; `split_loop` returns `none` exactly when the fuel runs
out, so termination of the Python loop on a given input is the statement
that the fueled computation with `length + 1` fuel returns `some`.  The
float comparison `bp_pos > max_length * 0.7` is rendered over rationals as
`7 * max_length < 10 * bp_pos`; CPython evaluates `max_length * 0.7` in
binary floating point, which can round below the exact product and so
accept a boundary `bp_pos` the rational test rejects (e.g. `max_length =
90`, `bp_pos = 63`).  The theorems below do not depend on which of the two
thresholds is used — they rely only on `1 ≤ break_point ≤ max_length`,
which holds for either — and at the repository's sole call site
(`max_length = 1600`) the float product `1120.0` is exact, so the two
tests agree there; the concrete counterexample inputs were checked to
behave identically under CPython. -/

/-- The break-point candidates `['. ', '! ', '? ', '\n', ' ']`
(server.py line 300), in priority order. -/
def break_points : List (List Char) :=
  [['.', ' '], ['!', ' '], ['?', ' '], ['\n'], [' ']]

/-- Does `sub` occur in `msg` starting at index `i`? -/
def matchesAt (msg sub : List Char) (i : ℕ) : Bool :=
  (msg.drop i).take sub.length == sub

/-- Python `message.rfind(sub, 0, endIdx)`: the greatest index `i` such that
`sub` occurs at `i` and the occurrence lies inside `[0, endIdx)`; `none`
when there is no such occurrence (Python returns `-1`). -/
def pyRfind (msg sub : List Char) (endIdx : ℕ) : Option ℕ :=
  ((List.range (endIdx + 1)).filter
    (fun i => decide (i + sub.length ≤ endIdx) && matchesAt msg sub i)).getLast?

/-- The break-point search of the loop body (server.py lines 300-307): the
first candidate in priority order whose last occurrence before `max_length`
falls strictly after 70% of `max_length` yields `occurrence + candidate
length`; otherwise `none` (Python keeps `break_point = -1`). -/
def find_break_point (msg : List Char) (max_length : ℕ) : Option ℕ :=
  break_points.findSome? (fun bp =>
    match pyRfind msg bp max_length with
    | some pos => if 7 * max_length < 10 * pos then some (pos + bp.length) else none
    | none => none)

/-- The `while message:` loop of `split_long_message` (server.py lines
294-314), with explicit fuel. -/
def split_loop (max_length : ℕ) : ℕ → List Char → Option (List (List Char))
  | 0, _ => none
  | fuel + 1, message =>
    if message.isEmpty then some []
    else if message.length ≤ max_length then some [message]
    else
      let break_point := match find_break_point message max_length with
        | some b => b
        | none => max_length
      match split_loop max_length fuel (pyStrip (message.drop break_point)) with
      | some parts => some (pyStrip (message.take break_point) :: parts)
      | none => none

/-- Embeds `split_long_message` (server.py lines 288-315).  Short messages
are returned as a single chunk unchanged (line 290-291); longer ones run
the loop, whose iteration count is bounded by the message length. -/
def split_long_message (message : List Char) (max_length : ℕ) :
    Option (List (List Char)) :=
  if message.length ≤ max_length then some [message]
  else split_loop max_length (message.length + 1) message

theorem pyStrip_length_le (l : List Char) : (pyStrip l).length ≤ l.length := by
  rw [pyStrip]
  calc ((l.dropWhile pyIsSpace).reverse.dropWhile pyIsSpace).reverse.length
      = ((l.dropWhile pyIsSpace).reverse.dropWhile pyIsSpace).length :=
        List.length_reverse _
    _ ≤ (l.dropWhile pyIsSpace).reverse.length :=
        List.Sublist.length_le (List.dropWhile_sublist pyIsSpace)
    _ = (l.dropWhile pyIsSpace).length := List.length_reverse _
    _ ≤ l.length := List.Sublist.length_le (List.dropWhile_sublist pyIsSpace)

theorem find_break_point_bounds (msg : List Char) (max_length : ℕ) (b : ℕ)
    (h : find_break_point msg max_length = some b) :
    1 ≤ b ∧ b ≤ max_length := by
  rw [find_break_point] at h
  obtain ⟨bp, hbp, hres⟩ := List.exists_of_findSome?_eq_some h
  cases hfind : pyRfind msg bp max_length with
  | none => rw [hfind] at hres; simp at hres
  | some pos =>
    simp only [hfind] at hres
    by_cases hthr : 7 * max_length < 10 * pos
    · rw [if_pos hthr] at hres
      have hb : b = pos + bp.length := by simpa using hres.symm
      have hmem : pos ∈ (List.range (max_length + 1)).filter
          (fun i => decide (i + bp.length ≤ max_length) && matchesAt msg bp i) :=
        List.mem_of_getLast?_eq_some hfind
      have hle : pos + bp.length ≤ max_length := by
        have := (List.mem_filter.mp hmem).2
        simp only [Bool.and_eq_true, decide_eq_true_eq] at this
        exact this.1
      have hbplen : 1 ≤ bp.length := by
        have : bp ∈ break_points := hbp
        fin_cases this <;> simp
      omega
    · rw [if_neg hthr] at hres
      simp at hres

theorem split_loop_total_bounded (max_length : ℕ) (hpos : 1 ≤ max_length) :
    ∀ (fuel : ℕ) (msg : List Char), msg.length < fuel →
    ∃ parts, split_loop max_length fuel msg = some parts ∧
      ∀ p ∈ parts, p.length ≤ max_length := by
  intro fuel
  induction fuel with
  | zero => intro msg h; omega
  | succ fuel ih =>
    intro msg hlen
    by_cases hemp : msg.isEmpty
    · exact ⟨[], by rw [split_loop, if_pos hemp], by simp⟩
    · by_cases hshort : msg.length ≤ max_length
      · refine ⟨[msg], ?_, ?_⟩
        · rw [split_loop, if_neg hemp, if_pos hshort]
        · intro p hp
          have : p = msg := by simpa using hp
          rw [this]; exact hshort
      · have hb : 1 ≤ (match find_break_point msg max_length with
            | some b => b
            | none => max_length) ∧
            (match find_break_point msg max_length with
            | some b => b
            | none => max_length) ≤ max_length := by
          cases hfb : find_break_point msg max_length with
          | none => exact ⟨hpos, le_refl _⟩
          | some b => exact find_break_point_bounds msg max_length b hfb
        set bpt := (match find_break_point msg max_length with
            | some b => b
            | none => max_length) with hbpt
        have hrest : (pyStrip (msg.drop bpt)).length < fuel := by
          have h1 := pyStrip_length_le (msg.drop bpt)
          have h2 : (msg.drop bpt).length = msg.length - bpt := List.length_drop _ _
          omega
        obtain ⟨parts, hsome, hbound⟩ := ih (pyStrip (msg.drop bpt)) hrest
        refine ⟨pyStrip (msg.take bpt) :: parts, ?_, ?_⟩
        · rw [split_loop, if_neg hemp, if_neg hshort, ← hbpt]
          show (match split_loop max_length fuel (pyStrip (msg.drop bpt)) with
            | some parts => some (pyStrip (msg.take bpt) :: parts)
            | none => none) = some (pyStrip (msg.take bpt) :: parts)
          rw [hsome]
        · intro p hp
          rcases List.mem_cons.mp hp with hhd | htl
          · rw [hhd]
            have h1 := pyStrip_length_le (msg.take bpt)
            have h2 : (msg.take bpt).length ≤ bpt := by
              rw [List.length_take]; omega
            omega
          · exact hbound p htl

/-- Counterexample to claim C5 as stated: with `max_length = 10 > 0` and an
input of 21 spaces, `split_long_message` emits exactly one chunk, and that
chunk is empty (Python returns `['']`): the "never emit an empty chunk,
even for whitespace runs" part of the claim is false. -/
theorem split_long_message_empty_chunk_counterexample :
    split_long_message (List.replicate 21 ' ') 10 = some [[]] ∧ 0 < 10 := by
  constructor
  · rfl
  · decide

/-- Claim C5, amended: for every input and every `max_length > 0` the loop
terminates (within `length + 1` iterations) and every returned chunk has
length at most `max_length`; chunks can however be empty when the text
around the chosen break point is entirely whitespace. -/
theorem split_long_message_total_bounded (message : List Char)
    (max_length : ℕ) (hpos : 0 < max_length) :
    ∃ parts, split_long_message message max_length = some parts ∧
      ∀ p ∈ parts, p.length ≤ max_length := by
  rw [split_long_message]
  by_cases hshort : message.length ≤ max_length
  · refine ⟨[message], by rw [if_pos hshort], ?_⟩
    intro p hp
    have : p = message := by simpa using hp
    rw [this]; exact hshort
  · rw [if_neg hshort]
    exact split_loop_total_bounded max_length hpos (message.length + 1) message
      (by omega)

/-- Witness for the amended C5 at `max_length = 3` on `"ab cd"`. -/
theorem split_long_message_total_bounded_witness :
    0 < 3 ∧
    ∃ parts, split_long_message ("ab cd".data) 3 = some parts ∧
      ∀ p ∈ parts, p.length ≤ 3 :=
  ⟨by decide, split_long_message_total_bounded ("ab cd".data) 3 (by decide)⟩

/-- Counterexample to claim C6: for the short input `" hi "` (length 4 ≤ 10)
`split_long_message` returns the single chunk `" hi "` unchanged
(server.py line 290-291 returns `[message]` without stripping), which
differs from the trimmed input `"hi"`. -/
theorem split_long_message_short_untrimmed_counterexample :
    split_long_message (" hi ".data) 10 = some [" hi ".data] ∧
    pyStrip (" hi ".data) ≠ " hi ".data := by
  constructor
  · rfl
  · decide

/-- Claim C6, amended: for every text with `len(text) ≤ max_length`,
`split_long_message` returns exactly one chunk, and that chunk is the input
unchanged — it is not trimmed of surrounding whitespace (trimming happens
only to chunks produced by the splitting loop). -/
theorem split_long_message_short (message : List Char) (max_length : ℕ)
    (h : message.length ≤ max_length) :
    split_long_message message max_length = some [message] := by
  rw [split_long_message, if_pos h]

/-- Witness for the amended C6 at `" hi "` with `max_length = 10`. -/
theorem split_long_message_short_witness :
    (" hi ".data).length ≤ 10 ∧
    split_long_message (" hi ".data) 10 = some [" hi ".data] :=
  ⟨by decide, split_long_message_short (" hi ".data) 10 (by decide)⟩

/-! ## Reassembly completeness (claim C7) -/

/-- The non-whitespace content of a text. -/
def nonWs (l : List Char) : List Char :=
  l.filter (fun c => !(pyIsSpace c))

theorem nonWs_dropWhile (l : List Char) :
    nonWs (l.dropWhile pyIsSpace) = nonWs l := by
  induction l with
  | nil => rfl
  | cons c cs ih =>
    by_cases hc : pyIsSpace c = true
    · rw [List.dropWhile_cons_of_pos hc, ih]
      simp [nonWs, List.filter_cons, hc]
    · rw [List.dropWhile_cons_of_neg hc]

theorem nonWs_reverse (l : List Char) : nonWs l.reverse = (nonWs l).reverse :=
  List.filter_reverse _ _

theorem nonWs_pyStrip (l : List Char) : nonWs (pyStrip l) = nonWs l := by
  rw [pyStrip, nonWs_reverse, nonWs_dropWhile, nonWs_reverse,
    List.reverse_reverse, nonWs_dropWhile]

theorem nonWs_append (l₁ l₂ : List Char) :
    nonWs (l₁ ++ l₂) = nonWs l₁ ++ nonWs l₂ :=
  List.filter_append _ _

theorem split_loop_reassembly (max_length : ℕ) :
    ∀ (fuel : ℕ) (msg : List Char) (parts : List (List Char)),
    split_loop max_length fuel msg = some parts →
    (parts.map nonWs).flatten = nonWs msg := by
  intro fuel
  induction fuel with
  | zero => intro msg parts h; simp [split_loop] at h
  | succ fuel ih =>
    intro msg parts h
    rw [split_loop] at h
    by_cases hemp : msg.isEmpty
    · rw [if_pos hemp] at h
      have hmsg : msg = [] := List.isEmpty_iff.mp hemp
      have hparts : parts = [] := by simpa using h.symm
      rw [hparts, hmsg]
      rfl
    · rw [if_neg hemp] at h
      by_cases hshort : msg.length ≤ max_length
      · rw [if_pos hshort] at h
        have hparts : parts = [msg] := by simpa using h.symm
        rw [hparts]
        simp
      · rw [if_neg hshort] at h
        set bpt := (match find_break_point msg max_length with
            | some b => b
            | none => max_length) with hbpt
        have h' : (match split_loop max_length fuel (pyStrip (msg.drop bpt)) with
            | some parts => some (pyStrip (msg.take bpt) :: parts)
            | none => none) = some parts := h
        cases hrec : split_loop max_length fuel (pyStrip (msg.drop bpt)) with
        | none => rw [hrec] at h'; simp at h'
        | some tailParts =>
          rw [hrec] at h'
          have hparts : parts = pyStrip (msg.take bpt) :: tailParts := by
            simpa using h'.symm
          rw [hparts]
          have htail := ih (pyStrip (msg.drop bpt)) tailParts hrec
          rw [List.map_cons, List.flatten_cons, htail,
            nonWs_pyStrip, nonWs_pyStrip, ← nonWs_append,
            List.take_append_drop]

/-- Claim C7: concatenating the chunks of `split_long_message` preserves the
input's content up to the whitespace removed at trim/break points: the
subsequence of non-whitespace characters is preserved exactly and in order,
for every input on which the function returns. -/
theorem split_long_message_reassembly (message : List Char) (max_length : ℕ)
    (parts : List (List Char))
    (h : split_long_message message max_length = some parts) :
    (parts.map nonWs).flatten = nonWs message := by
  rw [split_long_message] at h
  by_cases hshort : message.length ≤ max_length
  · rw [if_pos hshort] at h
    have hparts : parts = [message] := by simpa using h.symm
    rw [hparts]
    simp
  · rw [if_neg hshort] at h
    exact split_loop_reassembly max_length (message.length + 1) message parts h

/-- Witness for C7: `"ab cd"` split at `max_length = 3` into
`["ab", "cd"]`; the concatenated non-whitespace content is `"abcd"`. -/
theorem split_long_message_reassembly_witness :
    split_long_message ("ab cd".data) 3 = some ["ab".data, "cd".data] ∧
    ((["ab".data, "cd".data] : List (List Char)).map nonWs).flatten
      = nonWs ("ab cd".data) :=
  ⟨by decide, split_long_message_reassembly ("ab cd".data) 3
    ["ab".data, "cd".data] (by decide)⟩

/-! ## Webhook signature verification (`verify_webhook_signature`,
server.py lines 244-258)

The Python code delegates to the standard library: `hmac.new(secret,
payload, hashlib.sha256).hexdigest()` and `hmac.compare_digest`.  SHA-256
(FIPS 180-4) and HMAC (RFC 2104) are implemented here concretely over byte
lists (`List ℕ`, each element < 256), with 32-bit words as naturals reduced
mod `2^32`; `str.encode()` is the UTF-8 encoding.  `hmac.compare_digest`
on strings agrees with string equality (it raises on non-ASCII input, which
the `except` turns into `False`, the same verdict equality gives there). -/

/-- Reduction to a 32-bit word. -/
def w32 (x : ℕ) : ℕ := x % 4294967296

/-- 32-bit right rotation. -/
def rotr32 (n x : ℕ) : ℕ := w32 (x / 2 ^ n + x % 2 ^ n * 2 ^ (32 - n))

/-- 32-bit right shift. -/
def shr32 (n x : ℕ) : ℕ := x / 2 ^ n

/-- 32-bit bitwise complement. -/
def not32 (x : ℕ) : ℕ := Nat.xor x 4294967295

/-- SHA-256 choice function. -/
def sha2Ch (x y z : ℕ) : ℕ := Nat.xor (Nat.land x y) (Nat.land (not32 x) z)

/-- SHA-256 majority function. -/
def sha2Maj (x y z : ℕ) : ℕ :=
  Nat.xor (Nat.xor (Nat.land x y) (Nat.land x z)) (Nat.land y z)

/-- SHA-256 big sigma 0. -/
def bigSigma0 (x : ℕ) : ℕ := Nat.xor (Nat.xor (rotr32 2 x) (rotr32 13 x)) (rotr32 22 x)

/-- SHA-256 big sigma 1. -/
def bigSigma1 (x : ℕ) : ℕ := Nat.xor (Nat.xor (rotr32 6 x) (rotr32 11 x)) (rotr32 25 x)

/-- SHA-256 small sigma 0. -/
def smallSigma0 (x : ℕ) : ℕ := Nat.xor (Nat.xor (rotr32 7 x) (rotr32 18 x)) (shr32 3 x)

/-- SHA-256 small sigma 1. -/
def smallSigma1 (x : ℕ) : ℕ := Nat.xor (Nat.xor (rotr32 17 x) (rotr32 19 x)) (shr32 10 x)

/-- The 64 SHA-256 round constants (FIPS 180-4, in decimal). -/
def sha256K : List ℕ :=
  [1116352408, 1899447441, 3049323471, 3921009573, 961987163,
   1508970993, 2453635748, 2870763221, 3624381080, 310598401,
   607225278, 1426881987, 1925078388, 2162078206, 2614888103,
   3248222580, 3835390401, 4022224774, 264347078, 604807628,
   770255983, 1249150122, 1555081692, 1996064986, 2554220882,
   2821834349, 2952996808, 3210313671, 3336571891, 3584528711,
   113926993, 338241895, 666307205, 773529912, 1294757372,
   1396182291, 1695183700, 1986661051, 2177026350, 2456956037,
   2730485921, 2820302411, 3259730800, 3345764771, 3516065817,
   3600352804, 4094571909, 275423344, 430227734, 506948616,
   659060556, 883997877, 958139571, 1322822218, 1537002063,
   1747873779, 1955562222, 2024104815, 2227730452, 2361852424,
   2428436474, 2756734187, 3204031479, 3329325298]

/-- The SHA-256 initial hash value (FIPS 180-4, in decimal). -/
def sha256H0 : List ℕ :=
  [1779033703, 3144134277, 1013904242, 2773480762,
   1359893119, 2600822924, 528734635, 1541459225]

/-- Big-endian encoding of `x` into `nbytes` bytes. -/
def toBE (nbytes x : ℕ) : List ℕ :=
  (List.range nbytes).map (fun i => x / 2 ^ (8 * (nbytes - 1 - i)) % 256)

/-- SHA-256 padding: append `0x80`, zeros to 56 mod 64, then the bit length
as 8 big-endian bytes. -/
def sha256Pad (msg : List ℕ) : List ℕ :=
  msg ++ [0x80] ++ List.replicate ((119 - msg.length % 64) % 64) 0
    ++ toBE 8 (8 * msg.length)

/-- Group bytes into big-endian 32-bit words. -/
def bytesToWords : List ℕ → List ℕ
  | b0 :: b1 :: b2 :: b3 :: rest =>
    (b0 * 16777216 + b1 * 65536 + b2 * 256 + b3) :: bytesToWords rest
  | _ => []

/-- Group words into 16-word blocks (the padded input is always a whole
number of blocks). -/
def toBlocks : List ℕ → List (List ℕ)
  | w0 :: w1 :: w2 :: w3 :: w4 :: w5 :: w6 :: w7 ::
    w8 :: w9 :: w10 :: w11 :: w12 :: w13 :: w14 :: w15 :: rest =>
    [w0, w1, w2, w3, w4, w5, w6, w7, w8, w9, w10, w11, w12, w13, w14, w15]
      :: toBlocks rest
  | _ => []

/-- One step of the message-schedule extension. -/
def scheduleStep (w : List ℕ) : List ℕ :=
  w ++ [w32 (smallSigma1 (w.getD (w.length - 2) 0) + w.getD (w.length - 7) 0
    + smallSigma0 (w.getD (w.length - 15) 0) + w.getD (w.length - 16) 0)]

/-- The 64-word SHA-256 message schedule of a block. -/
def schedule (block : List ℕ) : List ℕ :=
  (List.range 48).foldl (fun w _ => scheduleStep w) block

/-- SHA-256 compression of one block into the running hash (8 words). -/
def sha256Compress (h : List ℕ) (block : List ℕ) : List ℕ :=
  let final := (List.zip sha256K (schedule block)).foldl (fun st kw =>
    match st with
    | [a, b, c, d, e, f, g, hh] =>
      let t1 := w32 (hh + bigSigma1 e + sha2Ch e f g + kw.1 + kw.2)
      let t2 := w32 (bigSigma0 a + sha2Maj a b c)
      [w32 (t1 + t2), a, b, c, w32 (d + t1), e, f, g]
    | other => other) h
  List.zipWith (fun x y => w32 (x + y)) h final

/-- SHA-256 digest of a byte list, as 32 bytes. -/
def sha256Bytes (msg : List ℕ) : List ℕ :=
  (((toBlocks (bytesToWords (sha256Pad msg))).foldl sha256Compress
    sha256H0).map (toBE 4)).flatten

/-- Lowercase hexadecimal digit. -/
def hexDigit (n : ℕ) : Char :=
  if n < 10 then Char.ofNat (48 + n) else Char.ofNat (87 + n)

/-- Lowercase hexadecimal rendering of a byte list
(Python `hexdigest()`). -/
def bytesToHex (bs : List ℕ) : String :=
  String.mk ((bs.map (fun b => [hexDigit (b / 16), hexDigit (b % 16)])).flatten)

/-- HMAC-SHA256 (RFC 2104) of a message under a key, as 32 bytes. -/
def hmacSha256 (key msg : List ℕ) : List ℕ :=
  let k0 := if 64 < key.length then sha256Bytes key else key
  let kpad := k0 ++ List.replicate (64 - k0.length) 0
  sha256Bytes ((kpad.map (fun b => Nat.xor b 0x5c))
    ++ sha256Bytes ((kpad.map (fun b => Nat.xor b 0x36)) ++ msg))

/-- Python `str.encode()`: UTF-8 bytes of a string. -/
def utf8Encode (s : String) : List ℕ :=
  (s.data.map (fun c =>
    let n := c.toNat
    if n < 0x80 then [n]
    else if n < 0x800 then [0xC0 + n / 64, 0x80 + n % 64]
    else if n < 0x10000 then [0xE0 + n / 4096, 0x80 + n / 64 % 64, 0x80 + n % 64]
    else [0xF0 + n / 262144, 0x80 + n / 4096 % 64, 0x80 + n / 64 % 64,
      0x80 + n % 64])).flatten

/-- Embeds `verify_webhook_signature` (server.py lines 244-258): skip (and
accept) when no app secret is configured or the signature header is empty
(`if not Config.APP_SECRET or not signature`); otherwise accept exactly
when the header equals `"sha256=" + hexdigest`.  The `except` branch
returning `False` is unreachable for string inputs whose comparison is
well-defined, and coincides with the equality verdict otherwise. -/
def verify_webhook_signature (app_secret payload signature : String) : Bool :=
  if app_secret = "" ∨ signature = "" then true
  else signature == "sha256=" ++
    bytesToHex (hmacSha256 (utf8Encode app_secret) (utf8Encode payload))

/-- Counterexample to claim C1 as stated: with the secret "secret"
configured, the empty signature header is accepted (`if not Config.APP_SECRET
or not signature: return True` also fires when only the signature is
falsy), yet the empty string is not `"sha256=" + hexdigest` — so "returns
true iff the header equals the expected value" fails at the empty header. -/
theorem verify_webhook_signature_empty_counterexample :
    verify_webhook_signature "secret" "payload" "" = true ∧
    ("" : String) ≠ "sha256=" ++
      bytesToHex (hmacSha256 (utf8Encode "secret") (utf8Encode "payload")) := by
  constructor
  · rfl
  · intro h
    have hlen := congrArg String.length h
    rw [String.length_append] at hlen
    have h0 : ("" : String).length = 0 := rfl
    have h7 : ("sha256=" : String).length = 7 := rfl
    omega

/-- Claim C1, amended: when a shared secret is configured and the signature
header is non-empty, `verify_webhook_signature` returns true iff the header
equals `"sha256="` followed by the lowercase hex HMAC-SHA256 digest of the
payload under the secret (so any change to the expected digest or header
that breaks the equality verifies false); when no secret is configured or
the signature header is empty, it returns true. -/
theorem verify_webhook_signature_spec (app_secret payload signature : String) :
    ((app_secret = "" ∨ signature = "") →
      verify_webhook_signature app_secret payload signature = true) ∧
    (app_secret ≠ "" → signature ≠ "" →
      (verify_webhook_signature app_secret payload signature = true ↔
        signature = "sha256=" ++
          bytesToHex (hmacSha256 (utf8Encode app_secret) (utf8Encode payload)))) := by
  constructor
  · intro h
    rw [verify_webhook_signature, if_pos h]
  · intro hsecret hsig
    rw [verify_webhook_signature, if_neg (not_or.mpr ⟨hsecret, hsig⟩)]
    exact beq_iff_eq

/-- Witness for the amended C1 at the concrete secret "k", payload "p" and
(non-matching) header "x": both hypotheses hold and the equivalence is
obtained from the theorem. -/
theorem verify_webhook_signature_spec_witness :
    (("k" : String) ≠ "" ∧ ("x" : String) ≠ "") ∧
    (verify_webhook_signature "k" "p" "x" = true ↔
      "x" = "sha256=" ++
        bytesToHex (hmacSha256 (utf8Encode "k") (utf8Encode "p"))) :=
  ⟨⟨by decide, by decide⟩,
   (verify_webhook_signature_spec "k" "p" "x").2 (by decide) (by decide)⟩
